import Mathlib

/-!
Verification of the documentation-improvement refinement loop
(`backend/agents/orchestrator.py`) and the rubric scorer / comparator
(`backend/agents/judge.py`).

Scores are modelled as rationals (the Python code manipulates floats coming
from a JSON oracle; all claim-relevant arithmetic is additions,
multiplications by fixed decimal weights, comparisons, and `round(x, 2)`).
Fallible collaborator calls (classifier, doc searcher, rewriter, judge
oracle) are modelled as `Except String` values; a Python exception is the
`.error` case.  Dictionary fields that may be absent from the oracle's
parsed response are modelled as `Option` fields: `d['k']` is a direct match
(raising, i.e. `none`-propagating, when absent) while `d.get('k', 0)` is
`Option.getD _ 0`.
-/

/-- Model of Python's `round(x, 2)` on exact rationals: round half to even
(banker's rounding) at the second decimal place. -/
def roundHalfEven (x : ℚ) : ℤ :=
  let f := ⌊x⌋
  let r := x - f
  if r < 1/2 then f
  else if 1/2 < r then f + 1
  else if Even f then f else f + 1

/-- Python's `round(x, 2)` as used by the source. -/
def round2 (x : ℚ) : ℚ :=
  (roundHalfEven (x * 100) : ℚ) / 100

/-- The six rubric criteria of `Judge` (`judge.py`).  `structure` is a Lean
keyword, hence the trailing tick. -/
inductive Criterion
  | accuracy
  | clarity
  | completeness
  | examples
  | structure'
  | discoverability
deriving DecidableEq, Repr

open Criterion in
/-- The `criteria` list from `Judge.compare_scores` (judge.py line 139). -/
def criteria : List Criterion :=
  [accuracy, clarity, completeness, examples, structure', discoverability]

/-- The weight vector `Judge.WEIGHTS` (judge.py lines 12-19). -/
def WEIGHTS : Criterion → ℚ
  | .accuracy => 30/100
  | .clarity => 20/100
  | .completeness => 20/100
  | .examples => 15/100
  | .structure' => 10/100
  | .discoverability => 5/100

/-- The parsed oracle response consumed by `Judge.evaluate_documentation`
and `Judge.compare_scores`: the `{criterion}_score` entries (possibly
absent: `none`), the `total_score` entry (absent until the aggregation
step writes it), the free-text reasoning and the improvement suggestions.
Feedback strings play no role in any claim and are omitted. -/
structure ScoreDict where
  scores : Criterion → Option ℚ
  total_score : Option ℚ
  overall_reasoning : Option String
  improvement_suggestions : List String

/-- The weighted-aggregation step of `Judge.evaluate_documentation`
(judge.py lines 94-104): each `result['{c}_score']` is a direct dictionary
access, so a missing sub-score raises (here: `none`); otherwise the
weighted total is computed in source order and rounded to two decimals. -/
def computeTotalScore (r : ScoreDict) : Option ℚ := do
  let a ← r.scores .accuracy
  let cl ← r.scores .clarity
  let co ← r.scores .completeness
  let ex ← r.scores .examples
  let st ← r.scores .structure'
  let di ← r.scores .discoverability
  pure (round2 (a * WEIGHTS .accuracy + cl * WEIGHTS .clarity +
      co * WEIGHTS .completeness + ex * WEIGHTS .examples +
      st * WEIGHTS .structure' + di * WEIGHTS .discoverability))

/-- One entry of the `improvements` / `regressions` lists built by
`Judge.compare_scores`: criterion, the rounded (absolute) delta, and the
two raw per-criterion scores. -/
structure CompEntry where
  criterion : Criterion
  delta : ℚ
  original : ℚ
  new : ℚ
deriving DecidableEq, Repr

/-- The dictionary returned by `Judge.compare_scores`. -/
structure Comparison where
  total_improvement : ℚ
  improved : Bool
  improvements : List CompEntry
  regressions : List CompEntry
  original_total : ℚ
  rewritten_total : ℚ
deriving DecidableEq, Repr

/-- Model of `Judge.compare_scores` (judge.py lines 121-170).  Per-criterion scores
are fetched with `.get(f'{criterion}_score', 0)` — a missing sub-score is
silently replaced by `0` — while the two `total_score` entries are direct
accesses, so a missing total raises (`none`). -/
def compare_scores (original_score rewritten_score : ScoreDict) : Option Comparison :=
  let improvements := criteria.filterMap (fun c =>
    let original := (original_score.scores c).getD 0
    let rewritten := (rewritten_score.scores c).getD 0
    let diff := rewritten - original
    if diff > 1/2 then
      some ⟨c, round2 diff, original, rewritten⟩
    else none)
  let regressions := criteria.filterMap (fun c =>
    let original := (original_score.scores c).getD 0
    let rewritten := (rewritten_score.scores c).getD 0
    let diff := rewritten - original
    if diff < -(1/2) then
      some ⟨c, round2 (-diff), original, rewritten⟩
    else none)
  match rewritten_score.total_score, original_score.total_score with
  | some nt, some ot =>
      some { total_improvement := round2 (nt - ot)
             improved := decide (nt - ot > 0)
             improvements := improvements
             regressions := regressions
             original_total := ot
             rewritten_total := nt }
  | _, _ => none

/-! ## Orchestrator (`backend/agents/orchestrator.py`) -/

/-- One row of the `review_queue` table as created by
`Orchestrator._flag_for_review` (orchestrator.py lines 280-312). -/
structure ReviewItem where
  reason : String
  detailed_reason : String
  original_score : Option ℚ
  best_achieved_score : Option ℚ
  iterations_attempted : Option ℕ
  status : String
deriving DecidableEq, Repr

/-- Model of `Orchestrator._flag_for_review`: builds one `ReviewQueue` row with
status `needs_review`; the score/iteration context defaults to `None`. -/
def flag_for_review (reason detailed_reason : String)
    (original_score best_score : Option ℚ) (iterations : Option ℕ) : ReviewItem :=
  { reason := reason
    detailed_reason := detailed_reason
    original_score := original_score
    best_achieved_score := best_score
    iterations_attempted := iterations
    status := "needs_review" }

/-- The mutable state of the refinement loop in
`Orchestrator.analyze_issue` (orchestrator.py lines 106-208) together with
the database rows it commits: the local variables `best_iteration`,
`best_score`, `iterations_since_improvement`, the committed
`analysis.total_iterations` / `analysis.best_iteration_number`, the number
of `RewriteIteration` rows inserted, the `ReviewQueue` rows inserted, and —
as a history variable — the value of `best_score` at each round's commit
point (line 181), oldest first. -/
structure LoopState where
  best_iteration : Option ℕ
  best_score : ℚ
  iterations_since_improvement : ℕ
  total_iterations : ℕ
  iteration_rows : ℕ
  flags : List ReviewItem
  best_trace : List ℚ
deriving Repr

/-- Loop state on entry to the loop (orchestrator.py lines 108-111):
`best_iteration = None`, `best_score = original_score`,
`iterations_since_improvement = 0`; no iteration rows, no flags yet. -/
def initLoopState (original_score : ℚ) : LoopState :=
  { best_iteration := none
    best_score := original_score
    iterations_since_improvement := 0
    total_iterations := 0
    iteration_rows := 0
    flags := []
    best_trace := [] }

/-- The body of `for iteration_num in range(1, max_iterations + 1)`
(orchestrator.py lines 113-208), iterated over the list of round numbers.
`rw i` models the `doc_rewriter.rewrite_documentation` call of round `i`
(its textual output only feeds the opaque rewriter/judge collaborators and
is irrelevant to every claim, so only its success/failure is kept); `ev i`
models `judge.evaluate_documentation` of round `i`, returning the
candidate's `total_score`.  A collaborator exception aborts the loop
carrying the state committed so far.  The `previous_feedback` bookkeeping
(lines 204-208) only changes the text passed to the opaque rewriter and is
not part of the state.  Breaks: after a round that beat the original,
patience exhaustion stops the loop (lines 184-188); otherwise reaching the
round budget files a `failed_to_improve` review flag and stops
(lines 189-202). -/
def loopGo (max_iterations improvement_iterations : ℕ) (original_score : ℚ)
    (rw : ℕ → Except String Unit) (ev : ℕ → Except String ℚ) :
    List ℕ → LoopState → Except (String × LoopState) LoopState
  | [], st => .ok st
  | iteration_num :: rest, st =>
    match rw iteration_num with
    | .error e => .error (e, st)
    | .ok _ =>
      -- RewriteIteration row committed (lines 124-133)
      let st₁ := { st with iteration_rows := st.iteration_rows + 1 }
      match ev iteration_num with
      | .error e => .error (e, st₁)
      | .ok current_score =>
        -- best tracking (lines 169-176)
        let st₂ :=
          if current_score > st₁.best_score then
            { st₁ with best_score := current_score
                       best_iteration := some iteration_num
                       iterations_since_improvement := 0 }
          else
            { st₁ with iterations_since_improvement :=
                         st₁.iterations_since_improvement + 1 }
        -- analysis.total_iterations / best_iteration_number commit (lines 179-181)
        let st₃ := { st₂ with total_iterations := iteration_num
                              best_trace := st₂.best_trace ++ [st₂.best_score] }
        -- stopping conditions (lines 183-202)
        if current_score > original_score then
          if st₃.iterations_since_improvement ≥ improvement_iterations then
            .ok st₃
          else
            loopGo max_iterations improvement_iterations original_score rw ev rest st₃
        else
          if iteration_num ≥ max_iterations then
            .ok { st₃ with flags := st₃.flags ++
              [flag_for_review "failed_to_improve"
                ("Could not improve documentation after " ++
                 toString max_iterations ++ " iterations")
                (some original_score) (some st₃.best_score)
                (some iteration_num)] }
          else
            loopGo max_iterations improvement_iterations original_score rw ev rest st₃

/-- The whole refinement loop (orchestrator.py lines 106-208): round
numbers `1, 2, …, max_iterations`. -/
def runLoop (max_iterations improvement_iterations : ℕ) (original_score : ℚ)
    (rw : ℕ → Except String Unit) (ev : ℕ → Except String ℚ) :
    Except (String × LoopState) LoopState :=
  loopGo max_iterations improvement_iterations original_score rw ev
    (List.range' 1 max_iterations) (initLoopState original_score)

/-- Result of `issue_classifier.classify_issue` as consumed by the
orchestrator. -/
structure Classification where
  is_doc_issue : Bool
  confidence : ℚ
deriving Repr

/-- The external collaborators invoked by `Orchestrator.analyze_issue`
after the analysis row is created: classifier, doc searcher, judge on the
original document, and per-round rewriter / judge.  Each call either
returns a value or raises. -/
structure Collab where
  classify : Except String Classification
  find_docs : Except String (List String)
  eval_original : Except String ℚ
  rewrite : ℕ → Except String Unit
  eval_round : ℕ → Except String ℚ

/-- The `DocumentationAnalysis.status` values (`models.py` line 52). -/
inductive RunStatus
  | processing
  | completed
  | flagged
  | failed
deriving DecidableEq, Repr

/-- Observable outcome of `Orchestrator.analyze_issue` from the analysis
row creation onward: the committed analysis fields, the review-queue rows,
and `raised = some e` when the exception `e` was re-raised to the caller
(orchestrator.py line 238), `none` on a normal return. -/
structure RunResult where
  status : RunStatus
  total_iterations : ℕ
  best_iteration_number : Option ℕ
  iteration_rows : ℕ
  completed_at_set : Bool
  flags : List ReviewItem
  raised : Option String
deriving Repr

/-- The review flag filed by the top-level exception handler
(orchestrator.py lines 231-236). -/
def processingErrorFlag (e : String) : ReviewItem :=
  flag_for_review "processing_error" ("Error during analysis: " ++ e)
    none none none

/-- Model of `Orchestrator.analyze_issue` (orchestrator.py lines 55-238) from the
point where the analysis row exists with status `processing`:
classify — return `completed` early when not a doc issue — find docs —
`no_docs_found` handling — score the original — refinement loop — final
status bookkeeping; any exception in these steps is caught once, the run
is marked `failed`, a `processing_error` review flag is filed, and the
exception is re-raised. -/
def analyze_issue (max_iterations improvement_iterations : ℕ) (c : Collab) :
    RunResult :=
  match c.classify with
  | .error e =>
      { status := .failed, total_iterations := 0, best_iteration_number := none
        iteration_rows := 0, completed_at_set := false
        flags := [processingErrorFlag e], raised := some e }
  | .ok classification =>
    if classification.is_doc_issue = false then
      -- not a doc issue: mark completed and return (lines 66-70)
      { status := .completed, total_iterations := 0, best_iteration_number := none
        iteration_rows := 0, completed_at_set := false, flags := [], raised := none }
    else
      match c.find_docs with
      | .error e =>
          { status := .failed, total_iterations := 0, best_iteration_number := none
            iteration_rows := 0, completed_at_set := false
            flags := [processingErrorFlag e], raised := some e }
      | .ok doc_results =>
        if doc_results.isEmpty then
          -- no docs found: failed + no_docs_found flag, normal return (lines 77-86)
          { status := .failed, total_iterations := 0, best_iteration_number := none
            iteration_rows := 0, completed_at_set := false
            flags := [flag_for_review "no_docs_found"
              "Could not find relevant documentation pages" none none none]
            raised := none }
        else
          match c.eval_original with
          | .error e =>
              { status := .failed, total_iterations := 0
                best_iteration_number := none, iteration_rows := 0
                completed_at_set := false
                flags := [processingErrorFlag e], raised := some e }
          | .ok original_score =>
            match runLoop max_iterations improvement_iterations original_score
                c.rewrite c.eval_round with
            | .error (e, st) =>
                { status := .failed, total_iterations := st.total_iterations
                  best_iteration_number := st.best_iteration
                  iteration_rows := st.iteration_rows
                  completed_at_set := false
                  flags := st.flags ++ [processingErrorFlag e], raised := some e }
            | .ok st =>
                -- final bookkeeping (lines 210-213)
                { status := if st.best_score > original_score then .completed
                            else .flagged
                  total_iterations := st.total_iterations
                  best_iteration_number := st.best_iteration
                  iteration_rows := st.iteration_rows
                  completed_at_set := true
                  flags := st.flags, raised := none }

/-! ## Helper notions for the loop proofs -/

/-- Maximum of the original's total and the candidate totals of rounds
`1..k` (the value `best_score` is supposed to track). -/
def maxCand (original_score : ℚ) (cand : ℕ → ℚ) : ℕ → ℚ
  | 0 => original_score
  | k + 1 => max (maxCand original_score cand k) (cand (k + 1))

/-- The invariant tracked across the refinement loop: after `k` executed
rounds, `total_iterations = k`, `best_score` is the maximum of the
original's total and the candidate totals of rounds `1..k`, the committed
best-score history lists those running maxima, `best_iteration` is `none`
exactly when no round's candidate exceeded the original, and otherwise it
is the earliest round achieving the running maximum (which then exceeds
the original). -/
def LoopInv (original_score : ℚ) (cand : ℕ → ℚ) (k : ℕ) (st : LoopState) : Prop :=
  st.total_iterations = k ∧
  st.best_score = maxCand original_score cand k ∧
  st.best_trace = (List.range' 1 k).map (fun j => maxCand original_score cand j) ∧
  (st.best_iteration = none ↔ ∀ i, 1 ≤ i → i ≤ k → cand i ≤ original_score) ∧
  (∀ b, st.best_iteration = some b →
    1 ≤ b ∧ b ≤ k ∧ original_score < cand b ∧
    cand b = maxCand original_score cand k ∧
    ∀ i, 1 ≤ i → i < b → cand i < cand b)


/-! ## Concrete inputs used by counterexamples and witnesses -/

/-- A rewriter collaborator that always succeeds. -/
def rwOk : ℕ → Except String Unit := fun _ => Except.ok ()

/-- A judge collaborator returning the same total for every round. -/
def evConst (q : ℚ) : ℕ → Except String ℚ := fun _ => Except.ok q

/-- Round totals 9, 7, 7, …: round 1 beats an original of 8, round 2
falls back below it. -/
def evC1 : ℕ → Except String ℚ := fun i => Except.ok (if i = 1 then 9 else 7)

/-- The review flag filed by a 1-round budget run with original total 5
and candidate total 4. -/
def flagC1w : ReviewItem :=
  flag_for_review "failed_to_improve"
    "Could not improve documentation after 1 iterations" (some 5) (some 5) (some 1)

/-- Final loop state of that run. -/
def stC1w : LoopState :=
  { best_iteration := none, best_score := 5, iterations_since_improvement := 1
    total_iterations := 1, iteration_rows := 1, flags := [flagC1w], best_trace := [5] }

/-- Round totals 9, 7, 7, … (round 1 beats an original of 6, round 2 does
not improve further). -/
def candC2w : ℕ → ℚ := fun i => if i = 1 then 9 else 7

/-- Final loop state of the 9 / 7 run against original 6 with two rounds
and patience 1. -/
def stC2w : LoopState :=
  { best_iteration := some 1, best_score := 9, iterations_since_improvement := 1
    total_iterations := 2, iteration_rows := 2, flags := [], best_trace := [9, 9] }

/-- Candidate totals constantly 6. -/
def candC10w : ℕ → ℚ := fun _ => 6

/-- Final loop state for constant candidate total 6 against an original of
5, two rounds, patience 1. -/
def stC10w : LoopState :=
  { best_iteration := some 1, best_score := 6, iterations_since_improvement := 1
    total_iterations := 2, iteration_rows := 2, flags := [], best_trace := [6, 6] }

/-- Collaborators of an error-free run whose candidates (total 9) beat the
original (total 8). -/
def collabHappy : Collab :=
  { classify := Except.ok ⟨true, 9/10⟩, find_docs := Except.ok ["doc"]
    eval_original := Except.ok 8, rewrite := rwOk, eval_round := evConst 9 }

/-- Final loop state of `collabHappy` with 2 rounds and patience 1. -/
def stC5w : LoopState :=
  { best_iteration := some 1, best_score := 9, iterations_since_improvement := 1
    total_iterations := 2, iteration_rows := 2, flags := [], best_trace := [9, 9] }

/-- Collaborators of an error-free run whose candidates (total 7) never
beat the original (total 8). -/
def collabBelow : Collab :=
  { classify := Except.ok ⟨true, 9/10⟩, find_docs := Except.ok ["doc"]
    eval_original := Except.ok 8, rewrite := rwOk, eval_round := evConst 7 }

/-- Collaborators whose document locator returns an empty list. -/
def collabNoDocs : Collab :=
  { classify := Except.ok ⟨true, 9/10⟩, find_docs := Except.ok []
    eval_original := Except.ok 8, rewrite := rwOk, eval_round := evConst 7 }

/-- Collaborators whose classifier call raises. -/
def collabClassifyErr : Collab :=
  { classify := Except.error "API timeout", find_docs := Except.ok ["doc"]
    eval_original := Except.ok 8, rewrite := rwOk, eval_round := evConst 7 }

/-- A fully-populated evaluation dictionary with the given per-criterion
scores and total. -/
def fullScores (f : Criterion → ℚ) (t : ℚ) : ScoreDict :=
  { scores := fun c => some (f c), total_score := some t
    overall_reasoning := none, improvement_suggestions := [] }

/-- An evaluation dictionary whose `accuracy_score` key is absent; every
other sub-score is 5 and the total is 5. -/
def missingAccuracy : ScoreDict :=
  { scores := fun c => match c with
      | Criterion.accuracy => none
      | _ => some 5
    total_score := some 5, overall_reasoning := none, improvement_suggestions := [] }

/-- All six sub-scores 5, total 5. -/
def allFivesDict : ScoreDict := fullScores (fun _ => 5) 5

/-- All six sub-scores 5 but no `total_score` key. -/
def noTotalDict : ScoreDict :=
  { scores := fun _ => some 5, total_score := none
    overall_reasoning := none, improvement_suggestions := [] }

/-- Replace every absent per-criterion sub-score by `0`, the default
`Judge.compare_scores` reads through `.get(f'{criterion}_score', 0)`. -/
def fillZero (d : ScoreDict) : ScoreDict :=
  { d with scores := fun c => some ((d.scores c).getD 0) }

/-- Per-criterion scores: accuracy 7, everything else 5. -/
def nSC3 : Criterion → ℚ :=
  fun c => match c with | Criterion.accuracy => 7 | _ => 5

/-- Rewritten scores for the C3 witness: accuracy 7, everything else 5;
total `round2(7*0.30 + 5*0.70) = 5.6`. -/
def newC3 : ScoreDict := fullScores nSC3 (56/10)


lemma orig_le_maxCand (original_score : ℚ) (cand : ℕ → ℚ) (k : ℕ) :
    original_score ≤ maxCand original_score cand k := by
  induction k with
  | zero => exact le_refl _
  | succ k ih => exact le_trans ih (le_max_left _ _)

lemma maxCand_mono_succ (original_score : ℚ) (cand : ℕ → ℚ) (k : ℕ) :
    maxCand original_score cand k ≤ maxCand original_score cand (k + 1) :=
  le_max_left _ _

lemma cand_le_maxCand (original_score : ℚ) (cand : ℕ → ℚ) {i k : ℕ}
    (h1 : 1 ≤ i) (h2 : i ≤ k) : cand i ≤ maxCand original_score cand k := by
  induction k with
  | zero => omega
  | succ k ih =>
    rcases Nat.lt_or_ge i (k + 1) with h | h
    · exact le_trans (ih (by omega)) (le_max_left _ _)
    · have : i = k + 1 := by omega
      subst this
      exact le_max_right _ _

lemma maxCand_eq_orig (original_score : ℚ) (cand : ℕ → ℚ) {k : ℕ}
    (h : ∀ i, 1 ≤ i → i ≤ k → cand i ≤ original_score) :
    maxCand original_score cand k = original_score := by
  induction k with
  | zero => rfl
  | succ k ih =>
    have hk : maxCand original_score cand k = original_score :=
      ih (fun i h1 h2 => h i h1 (by omega))
    simp [maxCand, hk, max_eq_left (h (k + 1) (by omega) (le_refl _))]

lemma loopInv_init (original_score : ℚ) (cand : ℕ → ℚ) :
    LoopInv original_score cand 0 (initLoopState original_score) := by
  refine ⟨rfl, rfl, rfl, ?_, ?_⟩
  · simp [initLoopState]
    omega
  · intro b hb
    simp [initLoopState] at hb

lemma range'_one_concat (k : ℕ) :
    List.range' 1 (k + 1) = List.range' 1 k ++ [1 + k] := by
  simpa using @List.range'_concat 1 1 k

/-- Propagation of `LoopInv` across one executed round: if the new state's
fields relate to the old ones the way lines 169-181 of `orchestrator.py`
compute them, the invariant moves from `k` to `k + 1` rounds. -/
lemma loopInv_succ (original_score : ℚ) (cand : ℕ → ℚ) (k : ℕ)
    (st st' : LoopState) (hInv : LoopInv original_score cand k st)
    (hti : st'.total_iterations = k + 1)
    (htr : st'.best_trace = st.best_trace ++ [st'.best_score])
    (hcase : (st.best_score < cand (k + 1) ∧ st'.best_score = cand (k + 1) ∧
                st'.best_iteration = some (k + 1)) ∨
             (¬ st.best_score < cand (k + 1) ∧ st'.best_score = st.best_score ∧
                st'.best_iteration = st.best_iteration)) :
    LoopInv original_score cand (k + 1) st' := by
  obtain ⟨h1, h2, h3, h4, h5⟩ := hInv
  rcases hcase with ⟨hgt, hbs, hbi⟩ | ⟨hle, hbs, hbi⟩
  · have hmax : maxCand original_score cand (k + 1) = cand (k + 1) := by
      rw [maxCand]
      exact max_eq_right (le_of_lt (h2 ▸ hgt))
    have horig : original_score < cand (k + 1) :=
      lt_of_le_of_lt (h2 ▸ orig_le_maxCand original_score cand k) hgt
    refine ⟨hti, by rw [hbs, hmax], ?_, ?_, ?_⟩
    · rw [htr, h3, hbs, range'_one_concat, List.map_append]
      simp [Nat.add_comm 1 k, hmax]
    · rw [hbi]
      constructor
      · intro habs; exact absurd habs (by simp)
      · intro hall
        exact absurd (hall (k + 1) (by omega) (le_refl _)) (not_le_of_lt horig)
    · intro b hb
      rw [hbi] at hb
      injection hb with hb
      subst hb
      refine ⟨by omega, le_refl _, horig, hmax.symm, ?_⟩
      intro i hi1 hi2
      calc cand i ≤ maxCand original_score cand k :=
            cand_le_maxCand original_score cand hi1 (by omega)
        _ < cand (k + 1) := h2 ▸ hgt
  · have hck : cand (k + 1) ≤ maxCand original_score cand k := h2 ▸ not_lt.mp hle
    have hmax : maxCand original_score cand (k + 1) = maxCand original_score cand k := by
      rw [maxCand]
      exact max_eq_left hck
    refine ⟨hti, by rw [hbs, hmax, h2], ?_, ?_, ?_⟩
    · rw [htr, h3, hbs, h2, range'_one_concat, List.map_append]
      simp [Nat.add_comm 1 k, hmax]
    · rw [hbi, h4]
      constructor
      · intro hall i hi1 hi2
        rcases Nat.lt_or_ge i (k + 1) with hik | hik
        · exact hall i hi1 (by omega)
        · have : i = k + 1 := by omega
          subst this
          calc cand (k + 1) ≤ maxCand original_score cand k := hck
            _ = original_score := maxCand_eq_orig original_score cand hall
      · intro hall i hi1 hi2
        exact hall i hi1 (by omega)
    · intro b hb
      rw [hbi] at hb
      obtain ⟨hb1, hb2, hb3, hb4, hb5⟩ := h5 b hb
      exact ⟨hb1, by omega, hb3, by rw [hb4, hmax], hb5⟩

/-- The refinement loop preserves `LoopInv` when the rewriter and judge
collaborators succeed on every round (the candidate of round `i` scoring
`cand i`). -/
lemma loopGo_ok_inv (max_iterations improvement_iterations : ℕ)
    (original_score : ℚ) (cand : ℕ → ℚ) :
    ∀ (m k : ℕ) (st st' : LoopState),
    LoopInv original_score cand k st →
    loopGo max_iterations improvement_iterations original_score
      (fun _ => .ok ()) (fun i => .ok (cand i)) (List.range' (k + 1) m) st = .ok st' →
    LoopInv original_score cand st'.total_iterations st' := by
  intro m
  induction m with
  | zero =>
    intro k st st' hInv h
    simp only [List.range', loopGo, Except.ok.injEq] at h
    subst h
    rw [hInv.1]
    exact hInv
  | succ m ih =>
    intro k st st' hInv h
    rw [show List.range' (k + 1) (m + 1) = (k + 1) :: List.range' (k + 2) m from rfl] at h
    simp only [loopGo] at h
    by_cases hbest : cand (k + 1) > st.best_score
    · simp only [if_pos hbest] at h
      by_cases hcur : cand (k + 1) > original_score
      · simp only [if_pos hcur] at h
        by_cases hpat : 0 ≥ improvement_iterations
        · simp only [if_pos hpat, Except.ok.injEq] at h
          subst h
          exact loopInv_succ original_score cand k st _ hInv rfl rfl
            (Or.inl ⟨hbest, rfl, rfl⟩)
        · simp only [if_neg hpat] at h
          refine ih (k + 1) _ st' ?_ h
          exact loopInv_succ original_score cand k st _ hInv rfl rfl
            (Or.inl ⟨hbest, rfl, rfl⟩)
      · simp only [if_neg hcur] at h
        by_cases hmax : k + 1 ≥ max_iterations
        · simp only [if_pos hmax, Except.ok.injEq] at h
          subst h
          exact loopInv_succ original_score cand k st _ hInv rfl rfl
            (Or.inl ⟨hbest, rfl, rfl⟩)
        · simp only [if_neg hmax] at h
          refine ih (k + 1) _ st' ?_ h
          exact loopInv_succ original_score cand k st _ hInv rfl rfl
            (Or.inl ⟨hbest, rfl, rfl⟩)
    · simp only [if_neg hbest] at h
      by_cases hcur : cand (k + 1) > original_score
      · simp only [if_pos hcur] at h
        by_cases hpat : st.iterations_since_improvement + 1 ≥ improvement_iterations
        · simp only [if_pos hpat, Except.ok.injEq] at h
          subst h
          exact loopInv_succ original_score cand k st _ hInv rfl rfl
            (Or.inr ⟨hbest, rfl, rfl⟩)
        · simp only [if_neg hpat] at h
          refine ih (k + 1) _ st' ?_ h
          exact loopInv_succ original_score cand k st _ hInv rfl rfl
            (Or.inr ⟨hbest, rfl, rfl⟩)
      · simp only [if_neg hcur] at h
        by_cases hmax : k + 1 ≥ max_iterations
        · simp only [if_pos hmax, Except.ok.injEq] at h
          subst h
          exact loopInv_succ original_score cand k st _ hInv rfl rfl
            (Or.inr ⟨hbest, rfl, rfl⟩)
        · simp only [if_neg hmax] at h
          refine ih (k + 1) _ st' ?_ h
          exact loopInv_succ original_score cand k st _ hInv rfl rfl
            (Or.inr ⟨hbest, rfl, rfl⟩)

/-- Flag characterization of a normally-terminating loop: either no review
flag was filed by the loop, or exactly one `failed_to_improve` flag was
appended, and then the loop stopped at round `max_iterations` whose
candidate did not exceed the original's total, with the flag recording the
original score, the tracked best score, and `max_iterations` rounds. -/
lemma loopGo_ok_flags (max_iterations improvement_iterations : ℕ)
    (original_score : ℚ) (rwr : ℕ → Except String Unit)
    (ev : ℕ → Except String ℚ) :
    ∀ (m k : ℕ) (st st' : LoopState),
    (∀ i, i ∈ List.range' (k + 1) m → i ≤ max_iterations) →
    loopGo max_iterations improvement_iterations original_score rwr ev
      (List.range' (k + 1) m) st = .ok st' →
    st'.flags = st.flags ∨
      (st'.total_iterations = max_iterations ∧
       (∃ s, ev max_iterations = .ok s ∧ s ≤ original_score) ∧
       st'.flags = st.flags ++
         [flag_for_review "failed_to_improve"
           ("Could not improve documentation after " ++
            toString max_iterations ++ " iterations")
           (some original_score) (some st'.best_score) (some max_iterations)]) := by
  intro m
  induction m with
  | zero =>
    intro k st st' _ h
    simp only [List.range', loopGo, Except.ok.injEq] at h
    subst h
    exact Or.inl rfl
  | succ m ih =>
    intro k st st' hbound h
    have hk1 : k + 1 ≤ max_iterations := by
      refine hbound (k + 1) ?_
      rw [show List.range' (k + 1) (m + 1) = (k + 1) :: List.range' (k + 2) m from rfl]
      exact List.mem_cons_self _ _
    rw [show List.range' (k + 1) (m + 1) = (k + 1) :: List.range' (k + 2) m from rfl] at h
    simp only [loopGo] at h
    rcases hrw : rwr (k + 1) with e | u
    · rw [hrw] at h
      simp at h
    · rw [hrw] at h
      rcases hev : ev (k + 1) with e | s
      · rw [hev] at h
        simp at h
      · rw [hev] at h
        have hbound' : ∀ i, i ∈ List.range' (k + 2) m → i ≤ max_iterations := by
          intro i hi
          refine hbound i ?_
          rw [show List.range' (k + 1) (m + 1) = (k + 1) :: List.range' (k + 2) m from rfl]
          exact List.mem_cons_of_mem _ hi
        by_cases hbest : s > st.best_score
        · simp only [if_pos hbest] at h
          by_cases hcur : s > original_score
          · simp only [if_pos hcur] at h
            by_cases hpat : 0 ≥ improvement_iterations
            · simp only [if_pos hpat, Except.ok.injEq] at h
              subst h
              exact Or.inl rfl
            · simp only [if_neg hpat] at h
              have hrec := ih (k + 1) _ st' hbound' h
              exact hrec
          · simp only [if_neg hcur] at h
            by_cases hmax : k + 1 ≥ max_iterations
            · simp only [if_pos hmax, Except.ok.injEq] at h
              subst h
              refine Or.inr ⟨?_, ⟨s, ?_, ?_⟩, ?_⟩
              · simp
                omega
              · rw [show max_iterations = k + 1 by omega]
                exact hev
              · exact not_lt.mp hcur
              · simp [flag_for_review]
                rw [show max_iterations = k + 1 by omega]
            · simp only [if_neg hmax] at h
              have hrec := ih (k + 1) _ st' hbound' h
              exact hrec
        · simp only [if_neg hbest] at h
          by_cases hcur : s > original_score
          · simp only [if_pos hcur] at h
            by_cases hpat : st.iterations_since_improvement + 1 ≥ improvement_iterations
            · simp only [if_pos hpat, Except.ok.injEq] at h
              subst h
              exact Or.inl rfl
            · simp only [if_neg hpat] at h
              have hrec := ih (k + 1) _ st' hbound' h
              exact hrec
          · simp only [if_neg hcur] at h
            by_cases hmax : k + 1 ≥ max_iterations
            · simp only [if_pos hmax, Except.ok.injEq] at h
              subst h
              refine Or.inr ⟨?_, ⟨s, ?_, ?_⟩, ?_⟩
              · simp
                omega
              · rw [show max_iterations = k + 1 by omega]
                exact hev
              · exact not_lt.mp hcur
              · simp [flag_for_review]
                rw [show max_iterations = k + 1 by omega]
            · simp only [if_neg hmax] at h
              have hrec := ih (k + 1) _ st' hbound' h
              exact hrec

/-- A loop aborted by a collaborator exception has filed no review flag of
its own: the state carried out by the exception holds exactly the flags
the loop was entered with. -/
lemma loopGo_error_flags (max_iterations improvement_iterations : ℕ)
    (original_score : ℚ) (rwr : ℕ → Except String Unit)
    (ev : ℕ → Except String ℚ) :
    ∀ (l : List ℕ) (st : LoopState) (e : String) (st' : LoopState),
    loopGo max_iterations improvement_iterations original_score rwr ev l st =
      .error (e, st') →
    st'.flags = st.flags := by
  intro l
  induction l with
  | nil =>
    intro st e st' h
    simp [loopGo] at h
  | cons i rest ih =>
    intro st e st' h
    simp only [loopGo] at h
    rcases hrw : rwr i with er | u
    · rw [hrw] at h
      simp only [Except.error.injEq, Prod.mk.injEq] at h
      rw [← h.2]
    · rw [hrw] at h
      rcases hev : ev i with er | s
      · rw [hev] at h
        simp only [Except.error.injEq, Prod.mk.injEq] at h
        rw [← h.2]
      · rw [hev] at h
        by_cases hbest : s > st.best_score
        · simp only [if_pos hbest] at h
          by_cases hcur : s > original_score
          · simp only [if_pos hcur] at h
            by_cases hpat : 0 ≥ improvement_iterations
            · simp only [if_pos hpat] at h
              simp at h
            · simp only [if_neg hpat] at h
              have hrec := ih _ _ _ h
              exact hrec
          · simp only [if_neg hcur] at h
            by_cases hmax : i ≥ max_iterations
            · simp only [if_pos hmax] at h
              simp at h
            · simp only [if_neg hmax] at h
              have hrec := ih _ _ _ h
              exact hrec
        · simp only [if_neg hbest] at h
          by_cases hcur : s > original_score
          · simp only [if_pos hcur] at h
            by_cases hpat : st.iterations_since_improvement + 1 ≥ improvement_iterations
            · simp only [if_pos hpat] at h
              simp at h
            · simp only [if_neg hpat] at h
              have hrec := ih _ _ _ h
              exact hrec
          · simp only [if_neg hcur] at h
            by_cases hmax : i ≥ max_iterations
            · simp only [if_pos hmax] at h
              simp at h
            · simp only [if_neg hmax] at h
              have hrec := ih _ _ _ h
              exact hrec

/-! ## Claim theorems -/

/-- C1 (counterexample): with `max_iterations = 2`,
`improvement_iterations = 1`, original total 8 and candidate totals 9
(round 1) and 7 (round 2), the loop files a `failed_to_improve` review
flag even though round 1's candidate total (9) exceeded the original's
total (8) — refuting "for every run in which some round's candidate total
exceeded the original's total, no `failed_to_improve` ReviewFlag is ever
raised".  The stopping check of `orchestrator.py` line 184 tests only the
*current* round's score. -/
theorem c1_counterexample :
    (runLoop 2 1 8 rwOk evC1).map
        (fun st => (List.map ReviewItem.reason st.flags, st.total_iterations)) =
      .ok (["failed_to_improve"], 2) ∧
    evC1 1 = .ok 9 ∧ ((8 : ℚ) < 9) := by
  refine ⟨by rfl, by rfl, by norm_num⟩

/-- C1 (amended): the refinement loop escalates with reason
`failed_to_improve` only when the round counter has reached the configured
maximum and the *final* round's candidate total did not exceed the
original's total (an earlier round's candidate may well have exceeded
it); the flag records the original score, the tracked best score, and the
number of iterations attempted. -/
theorem c1_failed_to_improve_escalation
    (max_iterations improvement_iterations : ℕ) (original_score : ℚ)
    (rwr : ℕ → Except String Unit) (ev : ℕ → Except String ℚ) (st : LoopState)
    (h : runLoop max_iterations improvement_iterations original_score rwr ev = .ok st)
    (f : ReviewItem) (hf : f ∈ st.flags) (hreason : f.reason = "failed_to_improve") :
    st.total_iterations = max_iterations ∧
    (∃ s, ev max_iterations = .ok s ∧ s ≤ original_score) ∧
    f.original_score = some original_score ∧
    f.best_achieved_score = some st.best_score ∧
    f.iterations_attempted = some max_iterations := by
  have hchar := loopGo_ok_flags max_iterations improvement_iterations
      original_score rwr ev max_iterations 0 (initLoopState original_score) st
      (by intro i hi; rw [List.mem_range'_1] at hi; omega) h
  rcases hchar with hsame | ⟨hti, hs, hflags⟩
  · rw [hsame] at hf
    simp [initLoopState] at hf
  · rw [hflags] at hf
    simp [initLoopState] at hf
    subst hf
    exact ⟨hti, hs, rfl, rfl, rfl⟩

/-- C1 (witness): a 1-round budget against original total 5 with the
candidate scoring 4 files the `failed_to_improve` flag with the recorded
context. -/
theorem c1_witness :
    runLoop 1 1 5 rwOk (evConst 4) = .ok stC1w ∧
    (stC1w.total_iterations = 1 ∧
     (∃ s, evConst 4 1 = .ok s ∧ s ≤ 5) ∧
     flagC1w.original_score = some 5 ∧
     flagC1w.best_achieved_score = some stC1w.best_score ∧
     flagC1w.iterations_attempted = some 1) := by
  have hrun : runLoop 1 1 5 rwOk (evConst 4) = .ok stC1w := by rfl
  exact ⟨hrun, c1_failed_to_improve_escalation 1 1 5 rwOk (evConst 4) stC1w hrun
    flagC1w (by simp [stC1w]) (by rfl)⟩

/-- C2 (counterexample): against an original total of 8, a single round
whose candidate also scores exactly 8 achieves the maximum total score
observed among rounds 1..1, yet `best_iteration_number` is left `None`
(the update requires a strict `>` against a best initialized to the
original's total) — so it does not point to the earliest
maximum-achieving round. -/
theorem c2_counterexample :
    (runLoop 1 1 8 rwOk (evConst 8)).map
        (fun st => (st.best_iteration, st.total_iterations)) = .ok (none, 1) ∧
    evConst 8 1 = .ok 8 := by
  exact ⟨by rfl, by rfl⟩

/-- C2 (amended): after a run of `N = total_iterations` rounds,
`best_iteration_number` is `None` exactly when no round's candidate total
exceeded the original's; otherwise it points to the earliest round among
1..N achieving the maximum candidate total, that total exceeding the
original's (updates happen only under strict `>` against a best score
initialized to the original's total). -/
theorem c2_best_iteration_tracking
    (max_iterations improvement_iterations : ℕ) (original_score : ℚ)
    (cand : ℕ → ℚ) (st : LoopState)
    (h : runLoop max_iterations improvement_iterations original_score
      (fun _ => .ok ()) (fun i => .ok (cand i)) = .ok st) :
    (st.best_iteration = none ↔
      ∀ i, 1 ≤ i → i ≤ st.total_iterations → cand i ≤ original_score) ∧
    (∀ b, st.best_iteration = some b →
      1 ≤ b ∧ b ≤ st.total_iterations ∧ original_score < cand b ∧
      (∀ i, 1 ≤ i → i ≤ st.total_iterations → cand i ≤ cand b) ∧
      (∀ i, 1 ≤ i → i < b → cand i < cand b)) := by
  have hInv := loopGo_ok_inv max_iterations improvement_iterations original_score
      cand max_iterations 0 (initLoopState original_score) st
      (loopInv_init original_score cand) h
  obtain ⟨h1, h2, h3, h4, h5⟩ := hInv
  refine ⟨h4, ?_⟩
  intro b hb
  obtain ⟨hb1, hb2, hb3, hb4, hb5⟩ := h5 b hb
  refine ⟨hb1, hb2, hb3, ?_, hb5⟩
  intro i hi1 hi2
  rw [hb4]
  exact cand_le_maxCand original_score cand hi1 hi2

/-- C2 (witness): original 6, round 1 scores 9, round 2 scores 7,
patience 1 — the run ends after two rounds with
`best_iteration_number = 1`, the earliest round achieving the maximum. -/
theorem c2_witness :
    runLoop 2 1 6 (fun _ => .ok ()) (fun i => .ok (candC2w i)) = .ok stC2w ∧
    ((stC2w.best_iteration = none ↔
        ∀ i, 1 ≤ i → i ≤ stC2w.total_iterations → candC2w i ≤ 6) ∧
     (∀ b, stC2w.best_iteration = some b →
        1 ≤ b ∧ b ≤ stC2w.total_iterations ∧ 6 < candC2w b ∧
        (∀ i, 1 ≤ i → i ≤ stC2w.total_iterations → candC2w i ≤ candC2w b) ∧
        (∀ i, 1 ≤ i → i < b → candC2w i < candC2w b))) := by
  have hrun : runLoop 2 1 6 (fun _ => .ok ()) (fun i => .ok (candC2w i)) = .ok stC2w := by
    rfl
  exact ⟨hrun, c2_best_iteration_tracking 2 1 6 candC2w stC2w hrun⟩

/-- C10 (confirmed): after an error-free loop run, the tracked best score
equals the maximum of the original's total and the candidate totals of
rounds 1..N; the per-round committed best-score history lists the running
maxima `maxCand 1, …, maxCand N`, which are monotonically non-decreasing
and never below the original's total; and a `failed_to_improve` review
flag, when present, records exactly that maximum (hence a value ≥ the
original's total). -/
theorem c10_best_score_invariant
    (max_iterations improvement_iterations : ℕ) (original_score : ℚ)
    (cand : ℕ → ℚ) (st : LoopState)
    (h : runLoop max_iterations improvement_iterations original_score
      (fun _ => .ok ()) (fun i => .ok (cand i)) = .ok st) :
    st.best_score = maxCand original_score cand st.total_iterations ∧
    st.best_trace = (List.range' 1 st.total_iterations).map
      (fun k => maxCand original_score cand k) ∧
    (∀ k, maxCand original_score cand k ≤ maxCand original_score cand (k + 1)) ∧
    (∀ k, original_score ≤ maxCand original_score cand k) ∧
    (∀ f, f ∈ st.flags → f.reason = "failed_to_improve" →
      f.best_achieved_score = some (maxCand original_score cand st.total_iterations) ∧
      original_score ≤ maxCand original_score cand st.total_iterations) := by
  have hInv := loopGo_ok_inv max_iterations improvement_iterations original_score
      cand max_iterations 0 (initLoopState original_score) st
      (loopInv_init original_score cand) h
  obtain ⟨h1, h2, h3, h4, h5⟩ := hInv
  refine ⟨h2, h3, fun k => maxCand_mono_succ original_score cand k,
    fun k => orig_le_maxCand original_score cand k, ?_⟩
  intro f hf _
  have hchar := loopGo_ok_flags max_iterations improvement_iterations
      original_score (fun _ => .ok ()) (fun i => .ok (cand i)) max_iterations 0
      (initLoopState original_score) st
      (by intro i hi; rw [List.mem_range'_1] at hi; omega) h
  rcases hchar with hsame | ⟨hti, hs, hflags⟩
  · rw [hsame] at hf
    simp [initLoopState] at hf
  · rw [hflags] at hf
    simp [initLoopState] at hf
    subst hf
    refine ⟨?_, orig_le_maxCand original_score cand _⟩
    rw [← h2]
    rfl

/-- C10 (witness): original 5, candidates constantly 6, two rounds: the
best score is 6 = max(5, 6, 6), the committed history is [6, 6], and no
flag is filed. -/
theorem c10_witness :
    runLoop 2 1 5 (fun _ => .ok ()) (fun i => .ok (candC10w i)) = .ok stC10w ∧
    stC10w.best_score = maxCand 5 candC10w stC10w.total_iterations ∧
    stC10w.best_trace = (List.range' 1 stC10w.total_iterations).map
      (fun k => maxCand 5 candC10w k) := by
  have hrun : runLoop 2 1 5 (fun _ => .ok ()) (fun i => .ok (candC10w i)) = .ok stC10w := by
    rfl
  have hc := c10_best_score_invariant 2 1 5 candC10w stC10w hrun
  exact ⟨hrun, hc.1, hc.2.1⟩

/-- C5 (confirmed): when the run reaches the refinement loop and the loop
finishes without an unrecovered error, the final status is `completed` if
the tracked best total exceeds the original's total and `flagged`
otherwise, and the completion timestamp is set (and nothing is raised to
the caller). -/
theorem c5_final_status
    (max_iterations improvement_iterations : ℕ) (c : Collab)
    (cls : Classification) (docs : List String) (original_score : ℚ)
    (st : LoopState)
    (hcls : c.classify = .ok cls) (hdoc : cls.is_doc_issue = true)
    (hdocs : c.find_docs = .ok docs) (hne : docs ≠ [])
    (horig : c.eval_original = .ok original_score)
    (hloop : runLoop max_iterations improvement_iterations original_score
      c.rewrite c.eval_round = .ok st) :
    (analyze_issue max_iterations improvement_iterations c).status =
      (if original_score < st.best_score then .completed else .flagged) ∧
    (analyze_issue max_iterations improvement_iterations c).completed_at_set = true ∧
    (analyze_issue max_iterations improvement_iterations c).raised = none := by
  have hempty : docs.isEmpty = false := by
    cases docs with
    | nil => exact absurd rfl hne
    | cons a l => rfl
  simp [analyze_issue, hcls, hdoc, hdocs, hempty, horig, hloop]

/-- C5 (witness): an error-free run with original total 8 and candidates
scoring 9 over a 2-round budget ends with the completion timestamp set
and status given by the best-vs-original comparison. -/
theorem c5_witness :
    (analyze_issue 2 1 collabHappy).status =
      (if (8 : ℚ) < stC5w.best_score then .completed else .flagged) ∧
    (analyze_issue 2 1 collabHappy).completed_at_set = true ∧
    (analyze_issue 2 1 collabHappy).raised = none :=
  c5_final_status 2 1 collabHappy ⟨true, 9/10⟩ ["doc"] 8 stC5w rfl rfl rfl
    (by simp) rfl (by rfl)

/-- C6 (counterexample): with `max_iterations = 0` a run that reaches the
refinement loop ends with status `flagged` and **no** ReviewFlag at all —
refuting the claim that the outcome carries the escalation outcome's
ReviewFlag: the `failed_to_improve` flag is only filed inside the loop
body, which never executes. -/
theorem c6_counterexample :
    (analyze_issue 0 1 collabBelow).flags = [] ∧
    (analyze_issue 0 1 collabBelow).status = .flagged ∧
    (analyze_issue 0 1 collabBelow).total_iterations = 0 := by
  exact ⟨rfl, rfl, rfl⟩

/-- C6 (amended): with a configured maximum of 0 rounds, a run that
reaches the refinement loop still ends in a well-defined terminal state:
status `flagged` (the terminal status of the
exhausted-budget-without-beating-original outcome) with the completion
timestamp set, zero iterations executed — but no ReviewFlag is created
and nothing is raised. -/
theorem c6_zero_budget
    (improvement_iterations : ℕ) (c : Collab) (cls : Classification)
    (docs : List String) (original_score : ℚ)
    (hcls : c.classify = .ok cls) (hdoc : cls.is_doc_issue = true)
    (hdocs : c.find_docs = .ok docs) (hne : docs ≠ [])
    (horig : c.eval_original = .ok original_score) :
    (analyze_issue 0 improvement_iterations c).status = .flagged ∧
    (analyze_issue 0 improvement_iterations c).completed_at_set = true ∧
    (analyze_issue 0 improvement_iterations c).total_iterations = 0 ∧
    (analyze_issue 0 improvement_iterations c).iteration_rows = 0 ∧
    (analyze_issue 0 improvement_iterations c).flags = [] ∧
    (analyze_issue 0 improvement_iterations c).raised = none := by
  have hempty : docs.isEmpty = false := by
    cases docs with
    | nil => exact absurd rfl hne
    | cons a l => rfl
  have hloop : runLoop 0 improvement_iterations original_score
      c.rewrite c.eval_round = .ok (initLoopState original_score) := rfl
  simp [analyze_issue, hcls, hdoc, hdocs, hempty, horig, hloop, initLoopState]

/-- C6 (witness): concrete zero-budget run (original total 8). -/
theorem c6_witness :
    (analyze_issue 0 1 collabBelow).status = .flagged ∧
    (analyze_issue 0 1 collabBelow).completed_at_set = true ∧
    (analyze_issue 0 1 collabBelow).total_iterations = 0 ∧
    (analyze_issue 0 1 collabBelow).iteration_rows = 0 ∧
    (analyze_issue 0 1 collabBelow).flags = [] ∧
    (analyze_issue 0 1 collabBelow).raised = none :=
  c6_zero_budget 1 collabBelow ⟨true, 9/10⟩ ["doc"] 8 rfl rfl rfl (by simp) rfl

/-- C8 (confirmed): when the document locator returns an empty list the
run is marked `failed`, exactly one ReviewFlag with reason `no_docs_found`
is filed, zero iterations are created, and no exception reaches the
caller. -/
theorem c8_no_docs_found
    (max_iterations improvement_iterations : ℕ) (c : Collab)
    (cls : Classification)
    (hcls : c.classify = .ok cls) (hdoc : cls.is_doc_issue = true)
    (hdocs : c.find_docs = .ok []) :
    (analyze_issue max_iterations improvement_iterations c).status = .failed ∧
    (analyze_issue max_iterations improvement_iterations c).flags =
      [flag_for_review "no_docs_found"
        "Could not find relevant documentation pages" none none none] ∧
    (analyze_issue max_iterations improvement_iterations c).iteration_rows = 0 ∧
    (analyze_issue max_iterations improvement_iterations c).total_iterations = 0 ∧
    (analyze_issue max_iterations improvement_iterations c).raised = none := by
  simp [analyze_issue, hcls, hdoc, hdocs]

/-- C8 (witness): concrete empty-locator run. -/
theorem c8_witness :
    (analyze_issue 2 1 collabNoDocs).status = .failed ∧
    (analyze_issue 2 1 collabNoDocs).flags =
      [flag_for_review "no_docs_found"
        "Could not find relevant documentation pages" none none none] ∧
    (analyze_issue 2 1 collabNoDocs).iteration_rows = 0 ∧
    (analyze_issue 2 1 collabNoDocs).total_iterations = 0 ∧
    (analyze_issue 2 1 collabNoDocs).raised = none :=
  c8_no_docs_found 2 1 collabNoDocs ⟨true, 9/10⟩ rfl rfl rfl

/-- C9 (confirmed): whenever `analyze_issue` re-raises an error `e` to the
caller (i.e. some step after the analysis row was created raised an
uncaught exception), the run's status is `failed` and its review queue
holds exactly one flag, with reason `processing_error`, carrying the
captured error description. -/
theorem c9_processing_error
    (max_iterations improvement_iterations : ℕ) (c : Collab) (e : String)
    (h : (analyze_issue max_iterations improvement_iterations c).raised = some e) :
    (analyze_issue max_iterations improvement_iterations c).status = .failed ∧
    (analyze_issue max_iterations improvement_iterations c).flags =
      [flag_for_review "processing_error"
        ("Error during analysis: " ++ e) none none none] := by
  rcases hcls : c.classify with e' | cls
  · simp only [analyze_issue, hcls] at h ⊢
    simp only [Option.some.injEq] at h
    subst h
    exact ⟨trivial, rfl⟩
  · by_cases hdoc : cls.is_doc_issue = false
    · simp [analyze_issue, hcls, hdoc] at h
    · rcases hdocs : c.find_docs with e' | docs
      · simp only [analyze_issue, hcls, hdocs, if_neg hdoc] at h ⊢
        simp only [Option.some.injEq] at h
        subst h
        exact ⟨trivial, rfl⟩
      · by_cases hempty : docs.isEmpty
        · simp [analyze_issue, hcls, hdocs, if_neg hdoc, hempty] at h
        · rcases horig : c.eval_original with e' | original_score
          · simp only [analyze_issue, hcls, hdocs, if_neg hdoc,
              Bool.not_eq_true] at h ⊢
            rw [Bool.not_eq_true] at hempty
            simp only [horig, hempty, Bool.false_eq_true, if_false] at h ⊢
            simp only [Option.some.injEq] at h
            subst h
            exact ⟨trivial, rfl⟩
          · rcases hloop : runLoop max_iterations improvement_iterations
                original_score c.rewrite c.eval_round with p | st
            · obtain ⟨e', st⟩ := p
              rw [Bool.not_eq_true] at hempty
              simp only [analyze_issue, hcls, if_neg hdoc, hdocs, hempty,
                Bool.false_eq_true, if_false, horig, hloop] at h ⊢
              simp only [Option.some.injEq] at h
              subst h
              refine ⟨trivial, ?_⟩
              have hfl : st.flags = (initLoopState original_score).flags :=
                loopGo_error_flags max_iterations improvement_iterations
                  original_score c.rewrite c.eval_round
                  (List.range' 1 max_iterations) (initLoopState original_score)
                  e' st hloop
              rw [hfl]
              rfl
            · rw [Bool.not_eq_true] at hempty
              simp [analyze_issue, hcls, if_neg hdoc, hdocs, hempty, horig,
                hloop] at h

/-- C9 (witness): a run whose classifier call raises "API timeout" ends
`failed` with exactly the one `processing_error` flag carrying the
message. -/
theorem c9_witness :
    (analyze_issue 2 1 collabClassifyErr).status = .failed ∧
    (analyze_issue 2 1 collabClassifyErr).flags =
      [flag_for_review "processing_error"
        ("Error during analysis: " ++ "API timeout") none none none] :=
  c9_processing_error 2 1 collabClassifyErr "API timeout" rfl

/-! ## Judge lemmas and claims -/

/-- Rounding to two decimals is the identity on exact hundredths. -/
lemma round2_intCast_div (n : ℤ) : round2 ((n : ℚ) / 100) = (n : ℚ) / 100 := by
  have h100 : ((n : ℚ) / 100) * 100 = (n : ℚ) := by field_simp
  simp [round2, roundHalfEven, h100]

lemma mem_criteria (c : Criterion) : c ∈ criteria := by
  cases c <;> simp [criteria]

/-- Membership of a criterion in a threshold-classified list. -/
lemma exists_classified (l : List Criterion) (P : Criterion → Prop)
    [DecidablePred P] (g : Criterion → CompEntry)
    (hg : ∀ c, (g c).criterion = c) (c : Criterion) :
    (∃ en ∈ l.filterMap (fun c' => if P c' then some (g c') else none),
        en.criterion = c) ↔ (c ∈ l ∧ P c) := by
  constructor
  · rintro ⟨en, hen, henc⟩
    rw [List.mem_filterMap] at hen
    obtain ⟨c', hc', hfc⟩ := hen
    by_cases hP : P c'
    · rw [if_pos hP] at hfc
      injection hfc with hfc
      subst hfc
      rw [hg c'] at henc
      subst henc
      exact ⟨hc', hP⟩
    · rw [if_neg hP] at hfc
      cases hfc
  · rintro ⟨hcl, hP⟩
    exact ⟨g c, List.mem_filterMap.mpr ⟨c, hcl, by rw [if_pos hP]⟩, hg c⟩

/-- C4 (confirmed): for every assignment of the six sub-scores — any
rationals, no clamping — the aggregation step computes
`round2(0.30*accuracy + 0.20*clarity + 0.20*completeness + 0.15*examples
+ 0.10*structure + 0.05*discoverability)`. -/
theorem c4_weighted_total (sc : Criterion → ℚ) :
    computeTotalScore
      { scores := fun c => some (sc c), total_score := none
        overall_reasoning := none, improvement_suggestions := [] } =
      some (round2 ((0.30 : ℚ) * sc Criterion.accuracy +
        (0.20 : ℚ) * sc Criterion.clarity +
        (0.20 : ℚ) * sc Criterion.completeness +
        (0.15 : ℚ) * sc Criterion.examples +
        (0.10 : ℚ) * sc Criterion.structure' +
        (0.05 : ℚ) * sc Criterion.discoverability)) := by
  simp only [computeTotalScore, WEIGHTS, Option.some_bind, Option.some.injEq]
  norm_num
  ring

/-- C3 (confirmed): for two fully-scored candidates (all six sub-scores
present, totals present and exact hundredths, as the aggregation step
produces), `compare_scores` returns total improvement
`new.total - original.total`, an `improved` flag true exactly when that
difference is positive, and classifies criterion `c` as an improvement
exactly when `new c - original c > 0.5` and as a regression exactly when
`new c - original c < -0.5` (strict comparisons; the ±0.5 band is
neutral). -/
theorem c3_compare_scores
    (oS nS : Criterion → ℚ) (ot nt : ℚ) (a b : ℤ) (ro rn : ScoreDict)
    (hro : ∀ c, ro.scores c = some (oS c)) (hrn : ∀ c, rn.scores c = some (nS c))
    (hot : ro.total_score = some ot) (hnt : rn.total_score = some nt)
    (ha : ot = (a : ℚ) / 100) (hb : nt = (b : ℚ) / 100) :
    ∃ cmp, compare_scores ro rn = some cmp ∧
      cmp.total_improvement = nt - ot ∧
      (cmp.improved = true ↔ 0 < nt - ot) ∧
      (∀ c, (∃ en ∈ cmp.improvements, en.criterion = c) ↔ 1/2 < nS c - oS c) ∧
      (∀ c, (∃ en ∈ cmp.regressions, en.criterion = c) ↔ nS c - oS c < -(1/2)) := by
  have hcmp : compare_scores ro rn = some
      { total_improvement := round2 (nt - ot)
        improved := decide (0 < nt - ot)
        improvements := criteria.filterMap (fun c =>
          if 1/2 < nS c - oS c then
            some { criterion := c, delta := round2 (nS c - oS c)
                   original := oS c, new := nS c }
          else none)
        regressions := criteria.filterMap (fun c =>
          if nS c - oS c < -(1/2) then
            some { criterion := c, delta := round2 (-(nS c - oS c))
                   original := oS c, new := nS c }
          else none)
        original_total := ot
        rewritten_total := nt } := by
    simp only [compare_scores, hro, hrn, Option.getD_some, hot, hnt]
  refine ⟨_, hcmp, ?_, ?_, ?_, ?_⟩
  · show round2 (nt - ot) = nt - ot
    subst ha hb
    have hsub : (b : ℚ) / 100 - (a : ℚ) / 100 = ((b - a : ℤ) : ℚ) / 100 := by
      push_cast
      ring
    rw [hsub, round2_intCast_div]
  · show decide (0 < nt - ot) = true ↔ 0 < nt - ot
    simp
  · intro c
    have h := exists_classified criteria (fun c => 1/2 < nS c - oS c)
      (fun c => { criterion := c, delta := round2 (nS c - oS c)
                  original := oS c, new := nS c }) (fun c => rfl) c
    simpa [mem_criteria c] using h
  · intro c
    have h := exists_classified criteria (fun c => nS c - oS c < -(1/2))
      (fun c => { criterion := c, delta := round2 (-(nS c - oS c))
                  original := oS c, new := nS c }) (fun c => rfl) c
    simpa [mem_criteria c] using h

/-- C3 (witness): original all-fives (total 5 = 500/100); rewritten
accuracy 7, others 5 (total 5.6 = 560/100): the comparison succeeds with
total improvement 0.6, `improved` true, and accuracy the only
classifiable improvement. -/
theorem c3_witness :
    ∃ cmp, compare_scores allFivesDict newC3 = some cmp ∧
      cmp.total_improvement = 56/10 - 5 ∧
      (cmp.improved = true ↔ (0 : ℚ) < 56/10 - 5) ∧
      (∀ c, (∃ en ∈ cmp.improvements, en.criterion = c) ↔
        (1 : ℚ)/2 < nSC3 c - 5) ∧
      (∀ c, (∃ en ∈ cmp.regressions, en.criterion = c) ↔
        nSC3 c - 5 < -(1/2)) :=
  c3_compare_scores (fun _ => 5) nSC3 5 (56/10) 500 560 allFivesDict newC3
    (fun _ => rfl) (fun _ => rfl) rfl rfl (by norm_num) (by norm_num)

/-- C7 (counterexample): `compare_scores` applied to an original missing
its `accuracy_score` does **not** fail: it silently substitutes 0 for the
missing sub-score (`.get(f'{criterion}_score', 0)` in judge.py line 142)
and classifies accuracy as an improvement from 0 to 5 — refuting the
claim that the comparison operation treats a missing sub-score as a fatal
contract violation. -/
theorem c7_counterexample :
    missingAccuracy.scores Criterion.accuracy = none ∧
    (compare_scores missingAccuracy allFivesDict).map
        (fun cmp => cmp.improvements.map (fun en => (en.criterion, en.original, en.new))) =
      some [(Criterion.accuracy, 0, 5)] := by
  refine ⟨rfl, ?_⟩
  norm_num [compare_scores, criteria, missingAccuracy, allFivesDict, fullScores,
    List.filterMap_cons]

/-- C7 (amended): the weighted-aggregation step treats a missing
sub-score as fatal (it reports an error, never substituting a default),
and `compare_scores` is fatal on a missing `total_score`; but for the
per-criterion classification, `compare_scores` silently substitutes 0
for a missing sub-score — its result is unchanged by filling every
absent sub-score with 0. -/
theorem c7_missing_subscore_handling :
    (∀ r : ScoreDict, (∃ c, r.scores c = none) → computeTotalScore r = none) ∧
    (∀ d₁ d₂ : ScoreDict, d₁.total_score = none ∨ d₂.total_score = none →
      compare_scores d₁ d₂ = none) ∧
    (∀ d₁ d₂ : ScoreDict,
      compare_scores d₁ d₂ = compare_scores (fillZero d₁) (fillZero d₂)) := by
  refine ⟨?_, ?_, ?_⟩
  · rintro r ⟨c, hc⟩
    rcases h1 : r.scores .accuracy with _ | a
    · simp [computeTotalScore, h1]
    · rcases h2 : r.scores .clarity with _ | v2
      · simp [computeTotalScore, h1, h2]
      · rcases h3 : r.scores .completeness with _ | v3
        · simp [computeTotalScore, h1, h2, h3]
        · rcases h4 : r.scores .examples with _ | v4
          · simp [computeTotalScore, h1, h2, h3, h4]
          · rcases h5 : r.scores .structure' with _ | v5
            · simp [computeTotalScore, h1, h2, h3, h4, h5]
            · rcases h6 : r.scores .discoverability with _ | v6
              · simp [computeTotalScore, h1, h2, h3, h4, h5, h6]
              · cases c <;> simp_all
  · intro d₁ d₂ h
    rcases h with h | h
    · rcases h2 : d₂.total_score with _ | t
      · simp [compare_scores, h, h2]
      · simp [compare_scores, h, h2]
    · rcases h1 : d₁.total_score with _ | t
      · simp [compare_scores, h, h1]
      · simp [compare_scores, h, h1]
  · intro d₁ d₂
    simp [compare_scores, fillZero]

/-- C7 (witness): a dictionary missing `accuracy_score` makes the
aggregation step fail, and a dictionary missing `total_score` makes the
comparison fail. -/
theorem c7_witness :
    computeTotalScore missingAccuracy = none ∧
    compare_scores noTotalDict allFivesDict = none :=
  ⟨c7_missing_subscore_handling.1 missingAccuracy ⟨Criterion.accuracy, rfl⟩,
   c7_missing_subscore_handling.2.1 noTotalDict allFivesDict (Or.inl rfl)⟩
